import Mathlib

/-!
Verification of the query/transform layer of the sales-dashboard script
(`streamlit.py`).  The script expresses its logic as DuckDB SQL over an
in-memory table; we embed each query as a Lean function over lists of rows,
with prices as exact rationals (the idealised numeric the spec describes) and
SQL `NULL` results modelled with `Option`.
-/

namespace StreamlitDemo

/-- Calendar date (year, month, day), modelling a DuckDB `DATE` value. -/
structure Date where
  year : Nat
  month : Nat
  day : Nat
deriving DecidableEq

/-- Strict lexicographic comparison of dates: the semantics of `<` on `DATE`s. -/
def Date.ltb (a b : Date) : Bool :=
  a.year < b.year ||
    (a.year == b.year &&
      (a.month < b.month || (a.month == b.month && a.day < b.day)))

/-- Non-strict date comparison, used for `ORDER BY "Order Date"`. -/
def Date.leb (a b : Date) : Bool :=
  Date.ltb a b || a == b

instance : LT Date := ⟨fun a b => Date.ltb a b = true⟩

instance : LE Date := ⟨fun a b => Date.leb a b = true⟩

instance (a b : Date) : Decidable (a < b) :=
  inferInstanceAs (Decidable (_ = true))

instance (a b : Date) : Decidable (a ≤ b) :=
  inferInstanceAs (Decidable (_ = true))

/-- English month names: `months_list` of the script (source line 111), which are
also exactly the names `STRFTIME '%B'` produces. -/
def months_list : List String :=
  ["January", "February", "March", "April", "May", "June", "July",
   "August", "September", "October", "November", "December"]

/-- The name of month `m` (1–12). -/
def monthName (m : Nat) : String := months_list.getD (m - 1) ""

/-- `STRFTIME("Order Date", '%B %Y')`: the `"<Month> <Year>"` label. -/
def monthLabel (d : Date) : String := monthName d.month ++ " " ++ toString d.year

/-- `STRFTIME("Order Date", '%Y%m')::INT`: the numeric `YYYYMM` sort key. -/
def monthYearSortKey (d : Date) : Int := d.year * 100 + d.month

/-- A raw transaction row of the CSV: columns
`Order Date, City, Product Type, Quantity Ordered, Price`
(`Price` is a string that may carry thousands-separator commas). -/
structure RawRow where
  orderDate : Date
  city : String
  productType : String
  quantity : Int
  price : String
deriving DecidableEq

/-- `REPLACE("Price", ',', '')`: drop every comma of the price string. -/
def stripCommas (s : String) : String := ⟨s.data.filter (fun c => c ≠ ',')⟩

/-- Value of a digit string read in base 10. -/
def digitsToNat (ds : List Char) : Nat :=
  ds.foldl (fun acc c => acc * 10 + (c.toNat - '0'.toNat)) 0

/-- Unsigned decimal numeral: digits, optionally followed by `.` and digits,
with at least one digit overall and nothing else in the string. -/
def parseUnsigned (cs : List Char) : Option ℚ :=
  let intPart := cs.takeWhile Char.isDigit
  let rest := cs.dropWhile Char.isDigit
  match rest with
  | [] => if intPart.isEmpty then none else some (digitsToNat intPart : ℚ)
  | '.' :: frac =>
      if frac.all Char.isDigit && !(intPart.isEmpty && frac.isEmpty) then
        some ((digitsToNat intPart : ℚ) +
          (digitsToNat frac : ℚ) / ((10 : ℚ) ^ frac.length))
      else none
  | _ => none

/-- Optional sign followed by an unsigned decimal numeral. -/
def parseDecimal (cs : List Char) : Option ℚ :=
  match cs with
  | '-' :: rest => (parseUnsigned rest).map Neg.neg
  | '+' :: rest => parseUnsigned rest
  | _ => parseUnsigned cs

/-- `REPLACE("Price", ',', '')::FLOAT`, modelling DuckDB's string-to-number cast
on plain decimal numerals; `none` is the cast's conversion error. -/
def parsePrice (s : String) : Option ℚ := parseDecimal (stripCommas s).data

/-- `ROUND(x, 2)`: round to 2 decimal places. -/
def round2 (q : ℚ) : ℚ := (round (q * 100) : ℤ) / 100

/-- A pre-cutoff row whose price has been parsed. -/
structure PRow where
  orderDate : Date
  city : String
  productType : String
  quantity : Int
  price : ℚ
deriving DecidableEq

/-- The grouping key of `GROUP BY ALL` in `get_sales_data`.  The query groups by
`Order Date, Order Day, Order Month, MonthYearSort, City, Product Type`; the
day, label and sort key are functions of the date, so the partition induced is
exactly the one of (`Order Date`, `City`, `Product Type`). -/
def PRow.key (r : PRow) : Date × String × String := (r.orderDate, r.city, r.productType)

/-- Same key, on a raw row. -/
def RawRow.key (r : RawRow) : Date × String × String := (r.orderDate, r.city, r.productType)

/-- Parse one kept row's price. -/
def parseRow (r : RawRow) : Option PRow :=
  (parsePrice r.price).map fun q => ⟨r.orderDate, r.city, r.productType, r.quantity, q⟩

/-- Parse every kept row; one unparsable price poisons the whole query, as the
failing cast aborts the SQL statement. -/
def parseAll : List RawRow → Option (List PRow)
  | [] => some []
  | r :: rs =>
      match parseRow r, parseAll rs with
      | some p, some ps => some (p :: ps)
      | _, _ => none

/-- A row of the grouped sales table (the `SELECT` list of `get_sales_data`). -/
structure GroupedRow where
  orderDate : Date
  orderDay : Nat
  orderMonth : String
  monthYearSort : Int
  city : String
  productType : String
  quantity : Int
  price : ℚ
deriving DecidableEq

/-- The grouping key of a grouped row. -/
def GroupedRow.key (g : GroupedRow) : Date × String × String :=
  (g.orderDate, g.city, g.productType)

/-- `GROUP BY ALL` with `SUM("Quantity Ordered")` and
`ROUND(SUM(parsed price), 2)`: one output row per key present, in order of
first appearance. -/
def groupRows (pl : List PRow) : List GroupedRow :=
  ((pl.map PRow.key).dedup).map fun k =>
    let grp := pl.filter (fun r => r.key == k)
    { orderDate := k.1
      orderDay := k.1.day
      orderMonth := monthLabel k.1
      monthYearSort := monthYearSortKey k.1
      city := k.2.1
      productType := k.2.2
      quantity := (grp.map PRow.quantity).sum
      price := round2 ((grp.map PRow.price).sum) }

/-- `WHERE "Order Date" < current_date`: strict cutoff filter. -/
def keptRows (rows : List RawRow) (asOf : Date) : List RawRow :=
  rows.filter (fun r => decide (r.orderDate < asOf))

/-- The kept rows with parsed prices, `none` when any kept price fails to parse. -/
def parsedRows (rows : List RawRow) (asOf : Date) : Option (List PRow) :=
  parseAll (keptRows rows asOf)

/-- `get_sales_data` (source lines 17–42): filter to the cutoff, parse prices,
group and aggregate.  `none` models the query aborting on a failed cast. -/
def get_sales_data (rows : List RawRow) (asOf : Date) : Option (List GroupedRow) :=
  (parsedRows rows asOf).map groupRows

/-- A row of the cumulative-sales table (the `SELECT` list of
`get_cumulative_sales`). -/
structure CumRow where
  orderDay : Nat
  orderMonth : String
  cumulativePrice : ℚ
deriving DecidableEq

/-- `SUM("Price") OVER (PARTITION BY "Order Month" ORDER BY "Order Day")`.
With an `ORDER BY` and no explicit frame the SQL window frame is
`RANGE BETWEEN UNBOUNDED PRECEDING AND CURRENT ROW`, so a row's frame holds
every row of its partition whose `Order Day` is at most the current row's —
peers of the current row included. -/
def windowCumPrice (tbl : List GroupedRow) (month : String) (day : Nat) : ℚ :=
  ((tbl.filter
      (fun r => r.orderMonth == month && decide (r.orderDay ≤ day))).map
    GroupedRow.price).sum

/-- `get_cumulative_sales` (source lines 44–60): per-month running sum of price
over the city-filtered table, output ordered by `Order Date`. -/
def get_cumulative_sales (tbl : List GroupedRow) : List CumRow :=
  (tbl.insertionSort (fun a b => a.orderDate ≤ b.orderDate)).map
    fun r => ⟨r.orderDay, r.orderMonth, windowCumPrice tbl r.orderMonth r.orderDay⟩

/-- The synthetic city entry, padded with two leading spaces in the source. -/
def allCitiesSentinel : String := "  All Cities"

/-- `get_cities` (source lines 62–77): `'  All Cities' UNION SELECT DISTINCT
"City"`, then `ORDER BY "City"` — the set of distinct cities plus the
sentinel, sorted lexicographically. -/
def get_cities (tbl : List GroupedRow) : List String :=
  ((allCitiesSentinel :: tbl.map GroupedRow.city).dedup).insertionSort (· ≤ ·)

/-- `get_months` (source lines 91–102): distinct (`Order Month`,
`MonthYearSort`) pairs ordered by the numeric sort key. -/
def get_months (tbl : List GroupedRow) : List (String × Int) :=
  ((tbl.map fun r => (r.orderMonth, r.monthYearSort)).dedup).insertionSort
    (fun a b => a.2 ≤ b.2)

/-- Python dict assignment `d[k] = v`: replace the value when the key is
present, append the pair otherwise. -/
def dictSet (m : List (String × String)) (k v : String) : List (String × String) :=
  if m.any (fun p => p.1 == k) then
    m.map (fun p => if p.1 == k then (k, v) else p)
  else m ++ [(k, v)]

/-- `color_discrete_map` (source lines 110–118): every month of the reference
year starts grey, the reference month is set red, and — only when the
reference month is past January — the month before it is set orange. -/
def color_discrete_map (ref : Date) : List (String × String) :=
  let base := months_list.map (fun m => (m ++ " " ++ toString ref.year, "grey"))
  let withRed :=
    dictSet base (months_list.getD (ref.month - 1) "" ++ " " ++ toString ref.year) "red"
  if ref.month > 1 then
    dictSet withRed (months_list.getD (ref.month - 2) "" ++ " " ++ toString ref.year) "orange"
  else withRed

/-- City filter (source lines 127–131): left unchanged for the sentinel,
otherwise `WHERE "City" = selected_city` with exact string equality. -/
def applyCityFilter (tbl : List GroupedRow) (selectedCity : String) : List GroupedRow :=
  if selectedCity == allCitiesSentinel then tbl
  else tbl.filter (fun r => r.city == selectedCity)

/-- `DATE_TRUNC('month', d)`: the first day of `d`'s month. -/
def dateTruncMonth (d : Date) : Date := ⟨d.year, d.month, 1⟩

/-- `mtd_filtered_sales` (source lines 133–135): rows whose order date is in
the reference date's calendar month. -/
def deriveMonthToDate (tbl : List GroupedRow) (ref : Date) : List GroupedRow :=
  tbl.filter (fun r => dateTruncMonth r.orderDate == dateTruncMonth ref)

/-- SQL `SUM` aggregate over rationals: `NULL` (`none`) on an empty table. -/
def sqlSum (xs : List ℚ) : Option ℚ :=
  match xs with
  | [] => none
  | _ => some xs.sum

/-- SQL `SUM` aggregate over integers: `NULL` (`none`) on an empty table. -/
def sqlSumInt (xs : List Int) : Option Int :=
  match xs with
  | [] => none
  | _ => some xs.sum

/-- `kpi_sales_ytd` (source line 138): `SUM("Price")` over `filtered_sales`. -/
def kpi_sales_ytd (filteredSales : List GroupedRow) : Option ℚ :=
  sqlSum (filteredSales.map GroupedRow.price)

/-- `kpi_sales_qty_ytd` (source line 139). -/
def kpi_sales_qty_ytd (filteredSales : List GroupedRow) : Option Int :=
  sqlSumInt (filteredSales.map GroupedRow.quantity)

/-- `kpi_sales_mtd` (source line 140): `SUM("Price")` over `mtd_filtered_sales`. -/
def kpi_sales_mtd (mtdFilteredSales : List GroupedRow) : Option ℚ :=
  sqlSum (mtdFilteredSales.map GroupedRow.price)

/-- `kpi_sales_qty_mtd` (source line 141). -/
def kpi_sales_qty_mtd (mtdFilteredSales : List GroupedRow) : Option Int :=
  sqlSumInt (mtdFilteredSales.map GroupedRow.quantity)

/-- The month-to-color rule as amended: the label `"<Month> <ref.year>"` of
month `i + 1` of the reference year maps to red when `i + 1` is the reference
month, to orange when the reference month is at least February and `i + 2` is
the reference month, and to grey otherwise; every other label — labels of
other years included, and December of the prior year when the reference month
is January — is absent from the map. -/
def expectedColor (ref : Date) (label : String) : Option String :=
  ((List.range 12).find?
      (fun i => label == months_list.getD i "" ++ " " ++ toString ref.year)).map
    (fun i =>
      if i + 1 = ref.month then "red"
      else if 2 ≤ ref.month ∧ i + 2 = ref.month then "orange"
      else "grey")

/-! ### Concrete rows used by witnesses and counterexamples -/

/-- A grouped row for New York. -/
def nycRow : GroupedRow :=
  ⟨⟨2019, 1, 5⟩, 5, "January 2019", 201901, "NYC", "A", 2, 1000⟩

/-- Grouped rows of one date in two cities (window peers). -/
def gNY : GroupedRow :=
  ⟨⟨2019, 1, 5⟩, 5, "January 2019", 201901, "NYC", "A", 2, 10⟩

/-- Second grouped row of the same date. -/
def gLA : GroupedRow :=
  ⟨⟨2019, 1, 5⟩, 5, "January 2019", 201901, "LA", "A", 1, 20⟩

/-- Grouped row: 2019-01-05, price 1000. -/
def gJan5 : GroupedRow :=
  ⟨⟨2019, 1, 5⟩, 5, "January 2019", 201901, "NYC", "A", 2, 1000⟩

/-- Grouped row: 2019-01-06, price 500.50. -/
def gJan6 : GroupedRow :=
  ⟨⟨2019, 1, 6⟩, 6, "January 2019", 201901, "NYC", "A", 3, 1001/2⟩

/-! ### Helper lemmas -/

theorem parseAll_eq_none_of_bad {l : List RawRow} {r : RawRow} (hr : r ∈ l)
    (hbad : parseRow r = none) : parseAll l = none := by
  induction l with
  | nil => cases hr
  | cons a as ih =>
      rcases List.mem_cons.mp hr with rfl | hr'
      · cases h : parseAll as <;> simp [parseAll, hbad, h]
      · cases h : parseRow a <;> simp [parseAll, h, ih hr']

theorem parseAll_forall₂ {l : List RawRow} {pl : List PRow}
    (h : parseAll l = some pl) :
    List.Forall₂ (fun r p => parseRow r = some p) l pl := by
  induction l generalizing pl with
  | nil =>
      simp [parseAll] at h
      subst h
      exact List.Forall₂.nil
  | cons a as ih =>
      cases ha : parseRow a with
      | none => simp [parseAll, ha] at h
      | some p =>
          cases has : parseAll as with
          | none => simp [parseAll, ha, has] at h
          | some ps =>
              simp [parseAll, ha, has] at h
              subst h
              exact List.Forall₂.cons ha (ih has)

theorem sum_ite_of_mem {κ : Type} [DecidableEq κ] (q : ℚ) :
    ∀ (keys : List κ) (c : κ), keys.Nodup → c ∈ keys →
      (keys.map fun k => if c = k then q else 0).sum = q := by
  intro keys
  induction keys with
  | nil => intro c _ hc; cases hc
  | cons k ks ih =>
      intro c hnd hc
      have hnd' := List.nodup_cons.mp hnd
      rcases List.mem_cons.mp hc with rfl | hc'
      · have hzero : (ks.map fun x => if c = x then q else 0).sum = 0 := by
          apply List.sum_eq_zero
          intro y hy
          simp only [List.mem_map] at hy
          obtain ⟨x, hx, rfl⟩ := hy
          have hne : c ≠ x := fun h => hnd'.1 (h ▸ hx)
          simp [hne]
        simp [hzero]
      · have hne : c ≠ k := by
          rintro rfl
          exact hnd'.1 hc'
        simp [hne, ih c hnd'.2 hc']

theorem sum_over_keys {α κ : Type} [BEq κ] [LawfulBEq κ] [DecidableEq κ]
    (f : α → κ) (g : α → ℚ) :
    ∀ (l : List α) (keys : List κ), keys.Nodup → (∀ x ∈ l, f x ∈ keys) →
      (keys.map fun k => ((l.filter fun x => f x == k).map g).sum).sum =
        (l.map g).sum := by
  intro l
  induction l with
  | nil => intro keys _ _; simp
  | cons a as ih =>
      intro keys hnd hall
      have step : ∀ k : κ,
          (((a :: as).filter fun x => f x == k).map g).sum =
            (if f a = k then g a else 0) + ((as.filter fun x => f x == k).map g).sum := by
        intro k
        by_cases h : f a = k
        · simp [List.filter_cons, h]
        · simp [List.filter_cons, h]
      calc (keys.map fun k => (((a :: as).filter fun x => f x == k).map g).sum).sum
          = (keys.map fun k =>
              (if f a = k then g a else 0) +
                ((as.filter fun x => f x == k).map g).sum).sum := by
            exact congrArg List.sum (List.map_congr_left fun k _ => step k)
        _ = (keys.map fun k => if f a = k then g a else 0).sum +
              (keys.map fun k => ((as.filter fun x => f x == k).map g).sum).sum := by
            rw [← List.sum_map_add]
        _ = g a + (as.map g).sum := by
            rw [sum_ite_of_mem (g a) keys (f a) hnd (hall a (List.mem_cons_self a as)),
              ih keys hnd (fun x hx => hall x (List.mem_cons_of_mem a hx))]
        _ = ((a :: as).map g).sum := by simp

theorem round2_eq_self {q : ℚ} (h : ∃ n : ℤ, q = n / 100) : round2 q = q := by
  obtain ⟨n, rfl⟩ := h
  unfold round2
  rw [div_mul_cancel₀ _ (by norm_num : (100 : ℚ) ≠ 0), round_intCast]

theorem groupRows_keys (pl : List PRow) :
    (groupRows pl).map GroupedRow.key = (pl.map PRow.key).dedup := by
  unfold groupRows
  rw [List.map_map]
  have : ∀ k ∈ (pl.map PRow.key).dedup,
      (GroupedRow.key ∘ fun k =>
        ({ orderDate := k.1, orderDay := k.1.day, orderMonth := monthLabel k.1
           monthYearSort := monthYearSortKey k.1, city := k.2.1, productType := k.2.2
           quantity := ((pl.filter (fun r => r.key == k)).map PRow.quantity).sum
           price := round2 (((pl.filter (fun r => r.key == k)).map PRow.price).sum) } :
          GroupedRow)) k = id k := by
    rintro ⟨d, c, p⟩ _
    rfl
  rw [List.map_congr_left this, List.map_id]

/-! ### Claims -/

/-- C3: each of the four KPI reductions applied to an empty filtered table
returns SQL `NULL` (`none`), not the number zero — the code diverges from the
claimed always-zero behaviour. -/
theorem kpi_sums_null_on_empty :
    kpi_sales_ytd [] = none ∧ kpi_sales_qty_ytd [] = none ∧
    kpi_sales_mtd [] = none ∧ kpi_sales_qty_mtd [] = none ∧
    kpi_sales_ytd [] ≠ some 0 ∧ kpi_sales_qty_ytd [] ≠ some 0 ∧
    kpi_sales_mtd [] ≠ some 0 ∧ kpi_sales_qty_mtd [] ≠ some 0 := by
  refine ⟨rfl, rfl, rfl, rfl, ?_, ?_, ?_, ?_⟩ <;> decide

/-- C5: `applyCityFilter` returns the table unchanged for the `All Cities`
sentinel, and otherwise keeps exactly the rows whose city equals the selected
city under exact, case-sensitive string equality. -/
theorem applyCityFilter_correct (tbl : List GroupedRow) :
    applyCityFilter tbl allCitiesSentinel = tbl ∧
    ∀ selectedCity : String, selectedCity ≠ allCitiesSentinel →
      ∀ r : GroupedRow,
        r ∈ applyCityFilter tbl selectedCity ↔ r ∈ tbl ∧ r.city = selectedCity := by
  constructor
  · simp [applyCityFilter]
  · intro c hc r
    simp [applyCityFilter, hc, List.mem_filter]

/-- Witness for C5 at a concrete table and a concrete non-sentinel city. -/
theorem applyCityFilter_correct_witness :
    nycRow ∈ applyCityFilter [nycRow] "NYC" :=
  ((applyCityFilter_correct [nycRow]).2 "NYC" (by decide) nycRow).mpr
    ⟨List.mem_singleton.mpr rfl, rfl⟩

/-- C7: `mtd_filtered_sales` is exactly the filter of the city-filtered table
to the rows whose order date is in the reference date's calendar year and
month (it is a plain filter, a pure function of its two inputs). -/
theorem deriveMonthToDate_correct (tbl : List GroupedRow) (ref : Date) :
    deriveMonthToDate tbl ref =
      (tbl.filter fun r =>
        decide (r.orderDate.year = ref.year ∧ r.orderDate.month = ref.month)) ∧
    ∀ r : GroupedRow,
      r ∈ deriveMonthToDate tbl ref ↔
        r ∈ tbl ∧ r.orderDate.year = ref.year ∧ r.orderDate.month = ref.month := by
  constructor
  · apply List.filter_congr
    intro x _
    rw [Bool.eq_iff_iff]
    simp [dateTruncMonth, Date.mk.injEq]
  · intro r
    simp [deriveMonthToDate, List.mem_filter, dateTruncMonth, Date.mk.injEq]

/-- C10: two cumulative-sales rows that share the order month label and order
day carry the same cumulative price — the default `RANGE` window frame sums
through all peers of a day at once. -/
theorem cumulative_ties_share_value (tbl : List GroupedRow) (c₁ c₂ : CumRow)
    (h₁ : c₁ ∈ get_cumulative_sales tbl) (h₂ : c₂ ∈ get_cumulative_sales tbl)
    (hm : c₁.orderMonth = c₂.orderMonth) (hd : c₁.orderDay = c₂.orderDay) :
    c₁.cumulativePrice = c₂.cumulativePrice := by
  simp only [get_cumulative_sales, List.mem_map] at h₁ h₂
  obtain ⟨r₁, -, rfl⟩ := h₁
  obtain ⟨r₂, -, rfl⟩ := h₂
  simp only at hm hd
  simp only [hm, hd]

theorem gNY_cum_mem :
    (⟨5, "January 2019", 30⟩ : CumRow) ∈ get_cumulative_sales [gNY, gLA] := by
  simp only [get_cumulative_sales, List.mem_map]
  refine ⟨gNY, (List.mem_insertionSort _).mpr (by simp), ?_⟩
  simp only [gNY, gLA, windowCumPrice, List.filter, List.map, CumRow.mk.injEq]
  norm_num

/-- Witness for C10: two rows of the same date (distinct cities) are peers. -/
theorem cumulative_ties_share_value_witness :
    (⟨5, "January 2019", 30⟩ : CumRow).cumulativePrice =
      (⟨5, "January 2019", 30⟩ : CumRow).cumulativePrice :=
  cumulative_ties_share_value [gNY, gLA] ⟨5, "January 2019", 30⟩ ⟨5, "January 2019", 30⟩
    gNY_cum_mem gNY_cum_mem rfl rfl

/-- C2: in the cumulative-sales output, a row whose order day is last within
its month label carries that month's total price from the grouped table. -/
theorem cumulative_last_day_is_month_total (tbl : List GroupedRow) (c : CumRow)
    (hc : c ∈ get_cumulative_sales tbl)
    (hlast : ∀ r ∈ tbl, r.orderMonth = c.orderMonth → r.orderDay ≤ c.orderDay) :
    c.cumulativePrice =
      ((tbl.filter fun r => r.orderMonth == c.orderMonth).map GroupedRow.price).sum := by
  simp only [get_cumulative_sales, List.mem_map] at hc
  obtain ⟨r, hr, rfl⟩ := hc
  simp only at hlast
  simp only [windowCumPrice]
  have hfil :
      (tbl.filter fun x => x.orderMonth == r.orderMonth && decide (x.orderDay ≤ r.orderDay)) =
        tbl.filter fun x => x.orderMonth == r.orderMonth := by
    apply List.filter_congr
    intro x hx
    by_cases h : x.orderMonth = r.orderMonth
    · have hd : x.orderDay ≤ r.orderDay := hlast x hx h
      simp [h, hd]
    · simp [h]
  rw [hfil]

theorem gJan6_cum_mem :
    (⟨6, "January 2019", 3001/2⟩ : CumRow) ∈ get_cumulative_sales [gJan5, gJan6] := by
  simp only [get_cumulative_sales, List.mem_map]
  refine ⟨gJan6, (List.mem_insertionSort _).mpr (by simp), ?_⟩
  simp only [gJan5, gJan6, windowCumPrice, List.filter, List.map, CumRow.mk.injEq]
  norm_num

/-- Witness for C2 at the spec's own end-to-end scenario. -/
theorem cumulative_last_day_is_month_total_witness :
    (⟨6, "January 2019", 3001/2⟩ : CumRow).cumulativePrice =
      (([gJan5, gJan6].filter fun r =>
          r.orderMonth == (⟨6, "January 2019", 3001/2⟩ : CumRow).orderMonth).map
        GroupedRow.price).sum :=
  cumulative_last_day_is_month_total [gJan5, gJan6] ⟨6, "January 2019", 3001/2⟩
    gJan6_cum_mem (by intro r hr hm; fin_cases hr <;> simp [gJan5, gJan6])

/-- C9: a pre-cutoff row whose price does not parse after comma removal makes
the whole grouping query fail: no partial grouped table is produced. -/
theorem malformed_price_aborts (rows : List RawRow) (asOf : Date) (r : RawRow)
    (hr : r ∈ rows) (hdate : r.orderDate < asOf) (hbad : parsePrice r.price = none) :
    get_sales_data rows asOf = none := by
  have hkept : r ∈ keptRows rows asOf :=
    List.mem_filter.mpr ⟨hr, by simpa using hdate⟩
  have hnone : parseAll (keptRows rows asOf) = none :=
    parseAll_eq_none_of_bad hkept (by simp [parseRow, hbad])
  simp [get_sales_data, parsedRows, hnone]

/-- Witness for C9 at a concrete malformed price. -/
theorem malformed_price_aborts_witness :
    get_sales_data [⟨⟨2019, 1, 5⟩, "NYC", "A", 2, "oops"⟩] ⟨2019, 9, 15⟩ = none :=
  malformed_price_aborts _ _ ⟨⟨2019, 1, 5⟩, "NYC", "A", 2, "oops"⟩
    (List.mem_singleton.mpr rfl) (by decide) (by decide)

/-- Grouped row for March 2019 (sort key 201903). -/
def marchRow : GroupedRow := ⟨⟨2019, 3, 2⟩, 2, "March 2019", 201903, "NYC", "A", 1, 5⟩

/-- Grouped row for January 2019 (sort key 201901). -/
def janRow : GroupedRow := ⟨⟨2019, 1, 5⟩, 5, "January 2019", 201901, "NYC", "A", 2, 7⟩

/-- Grouped row for April 2019 (sort key 201904). -/
def aprilRow : GroupedRow := ⟨⟨2019, 4, 1⟩, 1, "April 2019", 201904, "NYC", "A", 1, 5⟩

/-- Grouped row for December 2018 (sort key 201812). -/
def dec18Row : GroupedRow := ⟨⟨2018, 12, 3⟩, 3, "December 2018", 201812, "NYC", "A", 1, 5⟩

instance : IsTrans (String × Int) (fun a b => a.2 ≤ b.2) :=
  ⟨fun _ _ _ => le_trans⟩

instance : IsTotal (String × Int) (fun a b => a.2 ≤ b.2) :=
  ⟨fun a b => le_total a.2 b.2⟩

/-- C8: the month list is ordered by the numeric `YYYYMM` sort key ascending —
on the spec's example the output is January 2019 before March 2019, and on a
pair where string order disagrees (`"April 2019" < "December 2018"`
alphabetically) the numeric key still wins. -/
theorem get_months_sorted_by_key :
    (∀ tbl : List GroupedRow,
      (get_months tbl).Sorted (fun a b => a.2 ≤ b.2)) ∧
    (get_months [marchRow, janRow]).map Prod.fst = ["January 2019", "March 2019"] ∧
    (get_months [aprilRow, dec18Row]).map Prod.fst = ["December 2018", "April 2019"] := by
  refine ⟨fun tbl => List.sorted_insertionSort _ _, ?_, ?_⟩ <;> decide

/-- C6 (amended): provided every city name in the data is lexicographically
greater than the sentinel string — true of ordinary names, while empty or
leading-whitespace names violate it — `get_cities` puts the sentinel first,
followed by exactly the distinct real city names in strictly sorted order, and
the sentinel equals no city value of the data. -/
theorem get_cities_sentinel_first (tbl : List GroupedRow)
    (hcities : ∀ c ∈ tbl.map GroupedRow.city, allCitiesSentinel < c) :
    ∃ rest : List String,
      get_cities tbl = allCitiesSentinel :: rest ∧
      rest.Sorted (· < ·) ∧
      (∀ s, s ∈ rest ↔ s ∈ tbl.map GroupedRow.city) ∧
      allCitiesSentinel ∉ rest := by
  have hperm :
      List.Perm (get_cities tbl) ((allCitiesSentinel :: tbl.map GroupedRow.city).dedup) :=
    List.perm_insertionSort _ _
  have hnodup : (get_cities tbl).Nodup := hperm.nodup_iff.mpr (List.nodup_dedup _)
  have hsorted : (get_cities tbl).Sorted (· ≤ ·) := List.sorted_insertionSort _ _
  have hmem : ∀ s, s ∈ get_cities tbl ↔
      s = allCitiesSentinel ∨ s ∈ tbl.map GroupedRow.city := by
    intro s
    rw [hperm.mem_iff, List.mem_dedup, List.mem_cons]
  have hsent : allCitiesSentinel ∈ get_cities tbl := (hmem _).mpr (Or.inl rfl)
  cases hout : get_cities tbl with
  | nil => rw [hout] at hsent; cases hsent
  | cons h t =>
    rw [hout] at hsent hmem hnodup hsorted
    have hht : ∀ b ∈ t, h ≤ b := (List.sorted_cons.mp hsorted).1
    have hhead : h = allCitiesSentinel := by
      rcases List.mem_cons.mp hsent with he | ht'
      · exact he.symm
      · rcases (hmem h).mp (List.mem_cons_self h t) with he | hc
        · exact he
        · exact absurd (hcities h hc) (not_lt.mpr (hht _ ht'))
    subst hhead
    refine ⟨t, rfl, ?_, ?_, ?_⟩
    · exact ((List.sorted_cons.mp hsorted).2).lt_of_le (List.nodup_cons.mp hnodup).2
    · intro s
      constructor
      · intro hs
        rcases (hmem s).mp (List.mem_cons_of_mem _ hs) with he | hc
        · exact absurd (he ▸ hs) (List.nodup_cons.mp hnodup).1
        · exact hc
      · intro hs
        rcases List.mem_cons.mp ((hmem s).mpr (Or.inr hs)) with he | ht'
        · exact absurd (he ▸ hcities s hs) (lt_irrefl _)
        · exact ht'
    · exact (List.nodup_cons.mp hnodup).1

/-- Witness for C6 at a concrete one-city table. -/
theorem get_cities_sentinel_first_witness :
    (get_cities [nycRow]).head? = some allCitiesSentinel := by
  obtain ⟨rest, heq, -, -, -⟩ :=
    get_cities_sentinel_first [nycRow]
      (by
        intro c hc
        have : c = "NYC" := by simpa [nycRow] using hc
        rw [this, String.lt_iff_toList_lt]
        decide)
  rw [heq]
  rfl

/-- A grouped row whose city is the empty string. -/
def emptyCityRow : GroupedRow :=
  ⟨⟨2019, 1, 5⟩, 5, "January 2019", 201901, "", "A", 2, 1000⟩

/-- C6 counterexample: with an empty-string city name — a value a CSV can
perfectly well contain — the sentinel is not the first element of the city
list, and the remaining elements are not the real city names. -/
theorem get_cities_sentinel_not_first :
    get_cities [emptyCityRow] = ["", allCitiesSentinel] ∧
    ("" : String) ≠ allCitiesSentinel := by
  constructor
  · have h1 : ¬ (allCitiesSentinel ≤ "") := by
      rw [String.le_iff_toList_le]; decide
    have hd : (allCitiesSentinel :: [""]).dedup = [allCitiesSentinel, ""] := by
      rw [List.dedup_cons_of_not_mem (by decide)]
      rfl
    show ((allCitiesSentinel :: [""]).dedup).insertionSort (· ≤ ·) = _
    rw [hd]
    simp [List.insertionSort, List.orderedInsert, h1]
  · decide

theorem append_right_cancel' {a b s : String} (h : a ++ s = b ++ s) : a = b := by
  have hd : (a ++ s).data = (b ++ s).data := by rw [h]
  simp only [String.data_append] at hd
  exact String.ext (List.append_cancel_right hd)

theorem months_names_inj :
    ∀ i < 12, ∀ j < 12, months_list.getD i "" = months_list.getD j "" → i = j := by
  decide

theorem month_year_label_inj (y : Nat) :
    ∀ i < 12, ∀ j < 12,
      months_list.getD i "" ++ " " ++ toString y =
        months_list.getD j "" ++ " " ++ toString y → i = j :=
  fun i hi j hj h =>
    months_names_inj i hi j hj (append_right_cancel' (append_right_cancel' h))

theorem lookup_map_find {κ : Type} (keys : List κ) (kf : κ → String)
    (vf : κ → String) (label : String) :
    ((keys.map fun k => (kf k, vf k)).lookup label) =
      ((keys.find? fun k => label == kf k).map vf) := by
  induction keys with
  | nil => rfl
  | cons k ks ih =>
      cases h : (label == kf k) <;>
        simp [List.lookup, List.find?, h, ih]

theorem dictSet_map_range (n : Nat) (kf : Nat → String) (cf : Nat → String)
    (j : Nat) (hj : j < n) (hinj : ∀ i < n, kf i = kf j → i = j) (v : String) :
    dictSet ((List.range n).map fun i => (kf i, cf i)) (kf j) v =
      (List.range n).map fun i => (kf i, if i = j then v else cf i) := by
  unfold dictSet
  rw [if_pos, List.map_map]
  · apply List.map_congr_left
    intro i hi
    have hi' : i < n := List.mem_range.mp hi
    by_cases h : i = j
    · subst h; simp
    · have hne : kf i ≠ kf j := fun he => h (hinj i hi' he)
      simp [Function.comp, hne, h]
  · exact List.any_eq_true.mpr
      ⟨(kf j, cf j), List.mem_map.mpr ⟨j, List.mem_range.mpr hj, rfl⟩, by simp⟩

theorem color_map_as_range (ref : Date) (h1 : 1 ≤ ref.month) (h12 : ref.month ≤ 12) :
    color_discrete_map ref =
      (List.range 12).map fun i =>
        (months_list.getD i "" ++ " " ++ toString ref.year,
          if i = ref.month - 1 then "red"
          else if 1 < ref.month ∧ i = ref.month - 2 then "orange"
          else "grey") := by
  have hml : months_list = (List.range 12).map fun i => months_list.getD i "" := by
    decide
  have hbase : (months_list.map fun m => (m ++ " " ++ toString ref.year, "grey")) =
      (List.range 12).map fun i =>
        (months_list.getD i "" ++ " " ++ toString ref.year, "grey") := by
    conv_lhs => rw [hml]
    rw [List.map_map]
    exact List.map_congr_left fun i _ => rfl
  have hred := dictSet_map_range 12
    (fun i => months_list.getD i "" ++ " " ++ toString ref.year)
    (fun _ => "grey") (ref.month - 1) (by omega)
    (fun i hi => month_year_label_inj ref.year i hi (ref.month - 1) (by omega)) "red"
  by_cases hm : 1 < ref.month
  · have horange := dictSet_map_range 12
      (fun i => months_list.getD i "" ++ " " ++ toString ref.year)
      (fun i => if i = ref.month - 1 then "red" else "grey") (ref.month - 2) (by omega)
      (fun i hi => month_year_label_inj ref.year i hi (ref.month - 2) (by omega)) "orange"
    simp only [color_discrete_map, hbase, hred, horange, if_pos hm]
    apply List.map_congr_left
    intro i _
    congr 1
    simp only [hm, true_and]
    split_ifs <;> first | rfl | omega
  · simp only [color_discrete_map, hbase, hred, if_neg hm]
    apply List.map_congr_left
    intro i _
    congr 1
    simp [hm]

/-- C4 (amended): for every reference date, the color map assigns colors to
exactly the twelve month labels of the reference year — the reference month's
label red, the label of the month before it (only when the reference month is
past January) orange, every other reference-year label the neutral grey — and
contains no other label: labels of other years are absent rather than grey,
and a January reference date highlights no previous month at all. -/
theorem color_map_rule (ref : Date) (h1 : 1 ≤ ref.month) (h12 : ref.month ≤ 12)
    (label : String) :
    (color_discrete_map ref).lookup label = expectedColor ref label := by
  rw [color_map_as_range ref h1 h12,
    lookup_map_find (List.range 12)
      (fun i => months_list.getD i "" ++ " " ++ toString ref.year)
      (fun i =>
        if i = ref.month - 1 then "red"
        else if 1 < ref.month ∧ i = ref.month - 2 then "orange"
        else "grey") label]
  unfold expectedColor
  cases ho :
      (List.range 12).find?
        (fun i => label == months_list.getD i "" ++ " " ++ toString ref.year) with
  | none => rfl
  | some i =>
      simp only [Option.map_some']
      congr 1
      split_ifs <;> first | rfl | omega

/-- Witness for C4 at the script's own reference date and the previous-month
label. -/
theorem color_map_rule_witness :
    (color_discrete_map ⟨2019, 9, 15⟩).lookup "August 2019" =
      expectedColor ⟨2019, 9, 15⟩ "August 2019" :=
  color_map_rule ⟨2019, 9, 15⟩ (by decide) (by decide) "August 2019"

/-- C4 counterexample: `"March 2018"` is a month label the data can contain
(it is the label of 2018-03-02); it is neither the September 2019 reference
date's own label nor the preceding month's label, so the claim requires it to
map to the neutral color, yet the map does not contain it at all.  Likewise,
for a January reference date the claim requires December of the prior year to
get the second highlight, yet `"December 2018"` is absent. -/
theorem color_map_counterexample :
    monthLabel ⟨2018, 3, 2⟩ = "March 2018" ∧
    (color_discrete_map ⟨2019, 9, 15⟩).lookup "March 2018" = none ∧
    monthLabel ⟨2019, 9, 15⟩ = "September 2019" ∧
    monthLabel ⟨2019, 8, 15⟩ = "August 2019" ∧
    "March 2018" ≠ "September 2019" ∧ "March 2018" ≠ "August 2019" ∧
    (color_discrete_map ⟨2019, 1, 10⟩).lookup "December 2018" = none ∧
    monthLabel ⟨2018, 12, 31⟩ = "December 2018" := by
  decide

theorem groupRows_prices (pl : List PRow) :
    (groupRows pl).map GroupedRow.price =
      ((pl.map PRow.key).dedup).map
        (fun k => round2 (((pl.filter fun r => r.key == k).map PRow.price).sum)) := by
  unfold groupRows
  rw [List.map_map]
  exact List.map_congr_left fun k _ => rfl

theorem groupRows_row_sums (pl : List PRow) :
    ∀ g ∈ groupRows pl,
      g.quantity = ((pl.filter fun r => r.key == g.key).map PRow.quantity).sum ∧
      g.price = round2 (((pl.filter fun r => r.key == g.key).map PRow.price).sum) := by
  intro g hg
  simp only [groupRows, List.mem_map] at hg
  obtain ⟨k, -, rfl⟩ := hg
  obtain ⟨d, c, p⟩ := k
  exact ⟨rfl, rfl⟩

theorem groupRows_keys_mem (pl : List PRow) (k : Date × String × String) :
    k ∈ (groupRows pl).map GroupedRow.key ↔ k ∈ pl.map PRow.key := by
  rw [groupRows_keys]
  exact List.mem_dedup

theorem groupRows_total (pl : List PRow)
    (hcent : ∀ k ∈ pl.map PRow.key,
      ∃ n : ℤ, ((pl.filter fun r => r.key == k).map PRow.price).sum = n / 100) :
    ((groupRows pl).map GroupedRow.price).sum = (pl.map PRow.price).sum := by
  rw [groupRows_prices]
  have h2 : ∀ k ∈ (pl.map PRow.key).dedup,
      round2 (((pl.filter fun r => r.key == k).map PRow.price).sum) =
        ((pl.filter fun r => r.key == k).map PRow.price).sum :=
    fun k hk => round2_eq_self (hcent k (List.mem_dedup.mp hk))
  rw [List.map_congr_left h2]
  exact sum_over_keys PRow.key PRow.price pl ((pl.map PRow.key).dedup)
    (List.nodup_dedup _) (fun x hx => List.mem_dedup.mpr (List.mem_map_of_mem _ hx))

/-- C1 (amended): with every kept price parsing (comma-stripped) to `pl`, the
query succeeds and yields one grouped row per (order date, city, product type)
key present in the kept rows, each carrying the key's summed quantity and its
summed parsed price rounded to 2 decimals; the grand total of grouped prices
equals the grand total of parsed raw prices whenever each key group's summed
parsed price is exactly representable at 2 decimals (an integer number of
cents) — without that proviso rounding can change the grand total. -/
theorem get_sales_data_correct (rows : List RawRow) (asOf : Date) (pl : List PRow)
    (h : parsedRows rows asOf = some pl) :
    get_sales_data rows asOf = some (groupRows pl) ∧
    List.Forall₂ (fun r p => parseRow r = some p) (keptRows rows asOf) pl ∧
    ((groupRows pl).map GroupedRow.key).Nodup ∧
    (∀ k, k ∈ (groupRows pl).map GroupedRow.key ↔ k ∈ pl.map PRow.key) ∧
    (∀ g ∈ groupRows pl,
      g.quantity = ((pl.filter fun r => r.key == g.key).map PRow.quantity).sum ∧
      g.price = round2 (((pl.filter fun r => r.key == g.key).map PRow.price).sum)) ∧
    ((∀ k ∈ pl.map PRow.key,
        ∃ n : ℤ, ((pl.filter fun r => r.key == k).map PRow.price).sum = n / 100) →
      ((groupRows pl).map GroupedRow.price).sum = (pl.map PRow.price).sum) := by
  refine ⟨by simp [get_sales_data, h], parseAll_forall₂ h, ?_,
    groupRows_keys_mem pl, groupRows_row_sums pl, groupRows_total pl⟩
  rw [groupRows_keys]
  exact List.nodup_dedup _

/-- The raw rows of the spec's end-to-end scenario, with whole-dollar prices. -/
def demoRows : List RawRow :=
  [⟨⟨2019, 1, 5⟩, "NYC", "A", 2, "1,000"⟩, ⟨⟨2019, 1, 6⟩, "NYC", "A", 3, "500"⟩]

/-- The parsed form of `demoRows`. -/
def demoPl : List PRow :=
  [⟨⟨2019, 1, 5⟩, "NYC", "A", 2, ((1000 : ℕ) : ℚ)⟩,
   ⟨⟨2019, 1, 6⟩, "NYC", "A", 3, ((500 : ℕ) : ℚ)⟩]

theorem demo_parsed : parsedRows demoRows ⟨2019, 9, 15⟩ = some demoPl := rfl

/-- Witness for C1: on the demo table the grouped grand total equals the
parsed grand total. -/
theorem get_sales_data_correct_witness :
    ((groupRows demoPl).map GroupedRow.price).sum = (demoPl.map PRow.price).sum := by
  apply (get_sales_data_correct demoRows ⟨2019, 9, 15⟩ demoPl demo_parsed).2.2.2.2.2
  intro k hk
  simp only [demoPl, PRow.key, List.map_cons, List.map_nil, List.mem_cons,
    List.not_mem_nil, or_false] at hk
  rcases hk with rfl | rfl
  · exact ⟨100000, by simp [demoPl, PRow.key]; norm_num⟩
  · exact ⟨50000, by simp [demoPl, PRow.key]; norm_num⟩

/-- A raw row with a sub-cent price in city A. -/
def centRowA : RawRow := ⟨⟨2019, 1, 5⟩, "A", "P", 1, "0.004"⟩

/-- A raw row with a sub-cent price in city B. -/
def centRowB : RawRow := ⟨⟨2019, 1, 5⟩, "B", "P", 1, "0.004"⟩

/-- The rational value `0.004` in the exact shape the parser produces. -/
def cQ : ℚ := ((0 : ℕ) : ℚ) + ((4 : ℕ) : ℚ) / (10 : ℚ) ^ 3

/-- The parsed form of the two sub-cent rows. -/
def cPl : List PRow :=
  [⟨⟨2019, 1, 5⟩, "A", "P", 1, cQ⟩, ⟨⟨2019, 1, 5⟩, "B", "P", 1, cQ⟩]

theorem cent_parsed : parsedRows [centRowA, centRowB] ⟨2019, 9, 15⟩ = some cPl := rfl

theorem round2_cQ : round2 cQ = 0 := by
  have hq : cQ * 100 = 2 / 5 := by norm_num [cQ]
  have hr : round ((2 : ℚ) / 5) = 0 := by
    rw [round_eq]
    norm_num
  unfold round2
  rw [hq, hr]
  norm_num

/-- C1 counterexample: with two pre-cutoff rows of price `"0.004"` in distinct
cities, per-group rounding maps both grouped prices to `0`, so the grand total
of grouped prices is `0` while the grand total of the parsed raw prices is
`0.008 = 1/125` — the claimed equality of grand totals fails as stated. -/
theorem grouped_total_ne_parsed_total :
    ((get_sales_data [centRowA, centRowB] ⟨2019, 9, 15⟩).map
        fun out => (out.map GroupedRow.price).sum) = some 0 ∧
    ((parsedRows [centRowA, centRowB] ⟨2019, 9, 15⟩).map
        fun pl => (pl.map PRow.price).sum) = some (1 / 125) ∧
    (0 : ℚ) ≠ 1 / 125 := by
  refine ⟨?_, ?_, by norm_num⟩
  · have hgs : get_sales_data [centRowA, centRowB] ⟨2019, 9, 15⟩ =
        some (groupRows cPl) := by
      rw [get_sales_data, cent_parsed]
      rfl
    rw [hgs, Option.map_some']
    congr 1
    rw [groupRows_prices]
    have hkeys : (cPl.map PRow.key).dedup =
        [(⟨2019, 1, 5⟩, "A", "P"), (⟨2019, 1, 5⟩, "B", "P")] := by decide
    rw [hkeys]
    have hfA : (cPl.filter fun r => r.key == ((⟨2019, 1, 5⟩, "A", "P") : Date × String × String)) =
        [⟨⟨2019, 1, 5⟩, "A", "P", 1, cQ⟩] := by
      simp [cPl, PRow.key]
    have hfB : (cPl.filter fun r => r.key == ((⟨2019, 1, 5⟩, "B", "P") : Date × String × String)) =
        [⟨⟨2019, 1, 5⟩, "B", "P", 1, cQ⟩] := by
      simp [cPl, PRow.key]
    rw [List.map_cons, List.map_cons, List.map_nil, hfA, hfB]
    simp [round2_cQ]
  · rw [cent_parsed, Option.map_some']
    congr 1
    simp [cPl]
    norm_num [cQ]

end StreamlitDemo
